import Mathlib

/-!
Verification of the QuiverWallStreetBets universe-selection algorithm
(`QuiverWallStreetBetsUniverseSelectionAlgorithm.py`).

The algorithm class holds no state other than the host-managed log sink,
so the mutable object state is embedded as a structure carrying the list
of emitted log lines.  The `UniverseSelection` method is embedded as a
function from (state, daily batch) to (new state, batch after the loop,
returned selection); the logging loop is embedded by explicit state
threading (`logLoop`), so that non-mutation of the batch and the exact
log output are provable facts rather than assumptions.  The startup
validation in `Initialize` is embedded as `InitializeCheck`, returning
`Except` to model the `raise ValueError` paths.
-/

/-- One daily social-sentiment record, as accessed by the source
(`datum.Symbol`, `datum.Mentions`, `datum.Rank`, `datum.Sentiment`).
`sentiment` is only ever logged, never compared, so it is embedded as an
integer score. -/
structure SentimentRecord where
  symbol : String
  mentions : Int
  rank : Int
  sentiment : Int
deriving DecidableEq

/-- Mutable state of the algorithm object: the only state the source
methods touch is the log sink written by `self.Log`. -/
structure QuiverWallStreetBetsUniverseAlgorithm where
  logs : List String
deriving DecidableEq

/-- The log line built for one record:
`f"{datum.Symbol},{datum.Mentions},{datum.Rank},{datum.Sentiment}"`. -/
def logLine (d : SentimentRecord) : String :=
  d.symbol ++ "," ++ toString d.mentions ++ "," ++ toString d.rank ++ ","
    ++ toString d.sentiment

/-- The selection criteria of the list comprehension:
`d.Mentions > 100 and d.Rank < 100`. -/
def selectionCriteria (d : SentimentRecord) : Bool :=
  decide (d.mentions > 100) && decide (d.rank < 100)

/-- The returned selection: `[d.Symbol for d in data if d.Mentions > 100 and d.Rank < 100]`. -/
def select (data : List SentimentRecord) : List String :=
  (data.filter selectionCriteria).map SentimentRecord.symbol

/-- The logging loop `for datum in data: self.Log(...)`, embedded with
explicit state threading: each iteration appends one log line, and the
record itself passes through the body untouched (the body contains no
assignment to `datum`). -/
def logLoop (st : QuiverWallStreetBetsUniverseAlgorithm) :
    List SentimentRecord →
      QuiverWallStreetBetsUniverseAlgorithm × List SentimentRecord
  | [] => (st, [])
  | datum :: rest =>
      let st1 : QuiverWallStreetBetsUniverseAlgorithm :=
        { st with logs := st.logs ++ [logLine datum] }
      let out := logLoop st1 rest
      (out.1, datum :: out.2)

/-- The `UniverseSelection` method: run the logging loop over the batch,
then return the filtered symbols.  Result: (state after the call, the
batch as it stands after the call, the returned selection). -/
def UniverseSelection (st : QuiverWallStreetBetsUniverseAlgorithm)
    (data : List SentimentRecord) :
    QuiverWallStreetBetsUniverseAlgorithm × List SentimentRecord × List String :=
  let out := logLoop st data
  (out.1, out.2, select out.2)

/-- The loop `for dataForDate in history: if len(dataForDate) < 100: raise ...`
from `Initialize`. -/
def checkHistoricalData : List (List SentimentRecord) → Except String Unit
  | [] => Except.ok ()
  | dataForDate :: rest =>
      if dataForDate.length < 100 then
        Except.error "Unexpected historical universe data!"
      else checkHistoricalData rest

/-- The fallible validation portion of `Initialize`: after the history
request, `if len(history) != 1: raise ValueError(...)`, then the per-batch
length check.  `history` is the list of daily batches the host returned. -/
def InitializeCheck (history : List (List SentimentRecord)) : Except String Unit :=
  if history.length ≠ 1 then
    Except.error ("Unexpected history count " ++ toString history.length
      ++ "! Expected 1")
  else checkHistoricalData history

/-- The spec's three-record example scenario, record AAA. -/
def rAAA : SentimentRecord := { symbol := "AAA", mentions := 150, rank := 50, sentiment := 1 }

/-- The spec's three-record example scenario, record BBB. -/
def rBBB : SentimentRecord := { symbol := "BBB", mentions := 80, rank := 10, sentiment := 0 }

/-- The spec's three-record example scenario, record CCC. -/
def rCCC : SentimentRecord := { symbol := "CCC", mentions := 200, rank := 150, sentiment := 2 }

/-- The spec's three-record example scenario. -/
def scenarioBatch : List SentimentRecord := [rAAA, rBBB, rCCC]

/-- A non-qualifying record carrying the same symbol as the qualifying `rAAA`. -/
def dupOther : SentimentRecord := { symbol := "AAA", mentions := 80, rank := 10, sentiment := 0 }

/-- A batch in which the symbol AAA appears on a qualifying record and on a
non-qualifying one. -/
def dupBatch : List SentimentRecord := [rAAA, dupOther]

/-- Unfolding lemma for the logging loop: it appends exactly one log line
per record, in batch order, and returns the batch unchanged. -/
theorem logLoop_eq (st : QuiverWallStreetBetsUniverseAlgorithm)
    (data : List SentimentRecord) :
    logLoop st data = ({ logs := st.logs ++ data.map logLine }, data) := by
  induction data generalizing st with
  | nil => simp [logLoop]
  | cons d rest ih => simp [logLoop, ih, List.append_assoc]

/-- Unfolding lemma for the whole method call. -/
theorem UniverseSelection_eq (st : QuiverWallStreetBetsUniverseAlgorithm)
    (data : List SentimentRecord) :
    UniverseSelection st data
      = ({ logs := st.logs ++ data.map logLine }, data, select data) := by
  simp [UniverseSelection, logLoop_eq]

/-- C1 (as stated) is false: in a batch where the same symbol appears on a
qualifying record and on a non-qualifying one, the non-qualifying record is
"another record", yet its symbol is in the selection.  Here `dupOther` has
mentions 80 (not > 100), but its symbol AAA is selected via `rAAA`. -/
theorem select_exactness_counterexample :
    dupOther ∈ dupBatch ∧ ¬(dupOther.mentions > 100 ∧ dupOther.rank < 100) ∧
      dupOther.symbol ∈ select dupBatch := by decide

/-- C1 (amended): for every batch B and record r in B, if r qualifies then
its symbol is selected; and, provided the records of B carry pairwise
distinct symbols, the symbol of a non-qualifying record is not selected. -/
theorem select_exactness_of_nodup (B : List SentimentRecord)
    (r : SentimentRecord) (hr : r ∈ B) :
    (r.mentions > 100 ∧ r.rank < 100 → r.symbol ∈ select B) ∧
      ((B.map SentimentRecord.symbol).Nodup →
        r.symbol ∈ select B → r.mentions > 100 ∧ r.rank < 100) := by
  constructor
  · intro hq
    refine List.mem_map.2 ⟨r, List.mem_filter.2 ⟨hr, ?_⟩, rfl⟩
    simp [selectionCriteria, hq.1, hq.2]
  · intro hnd hmem
    rcases List.mem_map.1 hmem with ⟨r2, hr2, hsym⟩
    have hr2B : r2 ∈ B := List.mem_of_mem_filter hr2
    have : r2 = r := List.inj_on_of_nodup_map hnd hr2B hr hsym
    subst this
    have hc := List.of_mem_filter hr2
    simpa [selectionCriteria] using hc

/-- Witness for C1 (amended) at the spec's example batch. -/
theorem select_exactness_of_nodup_witness :
    rAAA ∈ scenarioBatch ∧ rAAA.symbol ∈ select scenarioBatch :=
  ⟨by decide,
    (select_exactness_of_nodup scenarioBatch rAAA (by decide)).1 (by decide)⟩

/-- C2: the startup validation succeeds exactly when the history holds one
single batch of at least 100 records; in every other case it aborts with an
error. -/
theorem InitializeCheck_spec (history : List (List SentimentRecord)) :
    (InitializeCheck history = Except.ok () ↔
      ∃ b, history = [b] ∧ 100 ≤ b.length) ∧
      ((history.length ≠ 1 ∨ ∃ b, history = [b] ∧ b.length < 100) →
        ∃ msg, InitializeCheck history = Except.error msg) := by
  rcases history with _ | ⟨b, _ | ⟨c, rest⟩⟩
  · refine ⟨by simp [InitializeCheck], fun _ => ?_⟩
    simp [InitializeCheck]
  · by_cases h : b.length < 100
    · refine ⟨?_, fun _ => ?_⟩
      · simp only [InitializeCheck, checkHistoricalData]
        simp [h, Nat.not_le.2 h]
      · simp only [InitializeCheck, checkHistoricalData]
        simp [h]
    · refine ⟨?_, ?_⟩
      · simp only [InitializeCheck, checkHistoricalData]
        simp [h, Nat.le_of_not_lt h]
      · rintro (hlen | ⟨c, hc, hlt⟩)
        · simp at hlen
        · injection hc with h1 _
          subst h1
          exact absurd hlt h
  · refine ⟨by simp [InitializeCheck], fun _ => ?_⟩
    simp [InitializeCheck]

/-- Witness for C2: a history of exactly one 100-record batch validates. -/
theorem InitializeCheck_spec_witness :
    InitializeCheck [List.replicate 100 rAAA] = Except.ok () :=
  (InitializeCheck_spec [List.replicate 100 rAAA]).1.2
    ⟨List.replicate 100 rAAA, rfl, by simp⟩

/-- Boundary record with mentions exactly 100. -/
def recM100 : SentimentRecord := { symbol := "M100", mentions := 100, rank := 5, sentiment := 0 }

/-- Boundary record with mentions 101 and rank 99. -/
def recIncl : SentimentRecord := { symbol := "INC", mentions := 101, rank := 99, sentiment := 0 }

/-- Boundary record with rank exactly 100. -/
def recR100 : SentimentRecord := { symbol := "R100", mentions := 500, rank := 100, sentiment := 0 }

/-- C3: both thresholds are strict: a record with mentions = 100 is not
selected, a record with mentions = 101 and rank = 99 is selected, and a
record with rank = 100 is not selected. -/
theorem select_boundary (r : SentimentRecord) :
    (r.mentions = 100 → select [r] = []) ∧
      (r.mentions = 101 → r.rank = 99 → select [r] = [r.symbol]) ∧
      (r.rank = 100 → select [r] = []) := by
  refine ⟨fun h => ?_, fun h1 h2 => ?_, fun h => ?_⟩ <;>
    simp [select, selectionCriteria, List.filter_cons, *]

/-- Witness for C3 at the three concrete boundary records. -/
theorem select_boundary_witness :
    select [recM100] = [] ∧ select [recIncl] = [recIncl.symbol] ∧
      select [recR100] = [] :=
  ⟨(select_boundary recM100).1 rfl,
   (select_boundary recIncl).2.1 rfl rfl,
   (select_boundary recR100).2.2 rfl⟩

/-- C4: every selected symbol is the symbol of some record of the input
batch; `select` invents no symbols. -/
theorem select_subset (B : List SentimentRecord) (s : String)
    (hs : s ∈ select B) : s ∈ B.map SentimentRecord.symbol := by
  simp only [select] at hs
  rcases List.mem_map.1 hs with ⟨r, hr, hsym⟩
  exact List.mem_map.2 ⟨r, List.mem_of_mem_filter hr, hsym⟩

/-- Witness for C4 at the spec's example batch. -/
theorem select_subset_witness : "AAA" ∈ scenarioBatch.map SentimentRecord.symbol :=
  select_subset scenarioBatch "AAA" (by decide)

/-- C5: the empty batch yields the empty selection, and the call returns
normally (it is total), leaving the state untouched and logging nothing. -/
theorem select_empty :
    select [] = [] ∧ ∀ st, UniverseSelection st [] = (st, [], []) :=
  ⟨rfl, fun _ => rfl⟩

/-- C6: calling the method twice on the same batch returns the same
selection both times: the selection does not depend on the object state
carried over (here, the logs accumulated by the first call). -/
theorem select_idempotent (st : QuiverWallStreetBetsUniverseAlgorithm)
    (B : List SentimentRecord) :
    (UniverseSelection (UniverseSelection st B).1 B).2.2
      = (UniverseSelection st B).2.2 := by
  simp [UniverseSelection_eq]

/-- C7: the batch after the call holds record-for-record the same symbol,
mentions, rank and sentiment values as before, and the only state change
is the appended log lines. -/
theorem UniverseSelection_no_mutation
    (st : QuiverWallStreetBetsUniverseAlgorithm) (B : List SentimentRecord) :
    ((UniverseSelection st B).2.1).map SentimentRecord.symbol
        = B.map SentimentRecord.symbol ∧
      ((UniverseSelection st B).2.1).map SentimentRecord.mentions
        = B.map SentimentRecord.mentions ∧
      ((UniverseSelection st B).2.1).map SentimentRecord.rank
        = B.map SentimentRecord.rank ∧
      ((UniverseSelection st B).2.1).map SentimentRecord.sentiment
        = B.map SentimentRecord.sentiment ∧
      (UniverseSelection st B).1.logs = st.logs ++ B.map logLine := by
  simp [UniverseSelection_eq]

/-- C8: the call emits exactly one log entry per record of the batch —
qualifying or not — holding symbol, mentions, rank, sentiment in that
order, comma-separated, and the entries appear in the batch's order. -/
theorem UniverseSelection_log_entries
    (st : QuiverWallStreetBetsUniverseAlgorithm) (B : List SentimentRecord) :
    (UniverseSelection st B).1.logs
      = st.logs ++ B.map (fun d =>
          d.symbol ++ "," ++ toString d.mentions ++ "," ++ toString d.rank
            ++ "," ++ toString d.sentiment) := by
  simp [UniverseSelection_eq, logLine]

/-- C9: the selection is a sublist of the batch's symbols in batch order:
the returned symbols keep the relative order of their records in the
input. -/
theorem select_preserves_order (B : List SentimentRecord) :
    List.Sublist (select B) (B.map SentimentRecord.symbol) := by
  simp only [select]
  exact List.Sublist.map SentimentRecord.symbol (List.filter_sublist B)

/-- C10: a symbol occurs in the selection once per qualifying record that
carries it: the list comprehension performs no deduplication. -/
theorem select_multiplicity (B : List SentimentRecord) (s : String) :
    (select B).count s
      = B.countP (fun d => selectionCriteria d && (d.symbol == s)) := by
  induction B with
  | nil => rfl
  | cons d rest ih =>
      simp only [select, List.filter_cons, List.countP_cons] at *
      by_cases hp : selectionCriteria d
      · by_cases hs : d.symbol = s <;>
          simp [hp, hs, List.count_cons, ih]
      · simp [hp, ih]
